import Mathlib

/-!
Shallow embedding of the file-merger core of `src/app/page.tsx`
(file-type detection, the file collection with its add / remove / move /
selection operations, the per-kind merge routines, and output-filename
packaging).  JavaScript strings are modelled through their logical
character-list representation so that every definition evaluates inside
the kernel; the external parsing libraries (pdf-lib, papaparse, mammoth,
docx) are black boxes per the specification and appear only through the
data they deliver (parsed CSV rows, extracted Word text).
-/

namespace FileMerger

/-- Lowercasing, JS `String.prototype.toLowerCase`, modelled on the
character list underlying a Lean string. -/
def lowerStr (s : String) : String := ⟨s.data.map Char.toLower⟩

/-- Suffix test, JS `String.prototype.endsWith`, modelled on the
character list underlying a Lean string. -/
def endsWithStr (s suffix : String) : Bool := suffix.data.isSuffixOf s.data

/-- Whitespace trim, JS `String.prototype.trim`, modelled on the
character list underlying a Lean string. -/
def trimStr (s : String) : String :=
  ⟨((s.data.dropWhile Char.isWhitespace).reverse.dropWhile Char.isWhitespace).reverse⟩

/-- Line split, JS `text.split` at a newline, modelled on the character
list underlying a Lean string. -/
def splitLinesStr (s : String) : List String :=
  (s.data.splitOn '\n').map (fun cs => ⟨cs⟩)

/-- Source union `FileType` of the four supported kinds: pdf, csv, docx, doc. -/
inductive FileType where
  | pdf
  | csv
  | docx
  | doc
deriving DecidableEq, Repr

/-- A raw browser file as seen by `addFiles` before detection: display
name, declared media type (`file.type`) and size in bytes. -/
structure RawFile where
  name : String
  type : String
  size : Nat
deriving DecidableEq, Repr

/-- A file accepted into the collection: the source attaches the detected
`fileType` to the raw file (`Object.assign(file, { fileType })`). -/
structure MFile where
  name : String
  fileType : FileType
  size : Nat
deriving DecidableEq, Repr

/-- Source `getFileType` (page.tsx lines 31-40): lowercase the name and the
declared media type, then test, in order, pdf, csv, docx, doc, each branch
accepting on its media type(s) or on its extension. -/
def getFileType (file : RawFile) : Option FileType :=
  if lowerStr file.type = "application/pdf" ∨
      endsWithStr (lowerStr file.name) ".pdf" = true then some FileType.pdf
  else if lowerStr file.type = "text/csv" ∨
      lowerStr file.type = "application/vnd.ms-excel" ∨
      endsWithStr (lowerStr file.name) ".csv" = true then some FileType.csv
  else if lowerStr file.type =
        "application/vnd.openxmlformats-officedocument.wordprocessingml.document" ∨
      endsWithStr (lowerStr file.name) ".docx" = true then some FileType.docx
  else if lowerStr file.type = "application/msword" ∨
      endsWithStr (lowerStr file.name) ".doc" = true then some FileType.doc
  else none

/-- The kind indicated by a (lowercased) declared media type alone,
following the mapping table of the detection rule. -/
def mediaKind (type : String) : Option FileType :=
  if type = "application/pdf" then some FileType.pdf
  else if type = "text/csv" ∨ type = "application/vnd.ms-excel" then some FileType.csv
  else if type =
      "application/vnd.openxmlformats-officedocument.wordprocessingml.document" then
    some FileType.docx
  else if type = "application/msword" then some FileType.doc
  else none

/-- The kind indicated by a (lowercased) file name extension alone,
following the mapping table of the detection rule. -/
def extKind (name : String) : Option FileType :=
  if endsWithStr name ".pdf" = true then some FileType.pdf
  else if endsWithStr name ".csv" = true then some FileType.csv
  else if endsWithStr name ".docx" = true then some FileType.docx
  else if endsWithStr name ".doc" = true then some FileType.doc
  else none

/-- Position of a kind in the order in which `getFileType` tests its
branches: pdf, csv, docx, doc. -/
def kindRank : FileType → Nat
  | FileType.pdf => 0
  | FileType.csv => 1
  | FileType.docx => 2
  | FileType.doc => 3

/-- Combination rule of the amended detection claim: if only one of the
media-type kind and the extension kind is defined it decides; if both are
defined the kind tested earlier by `getFileType` wins; if neither is
defined the file is unsupported. -/
def combineKinds : Option FileType → Option FileType → Option FileType
  | none, e => e
  | some m, none => some m
  | some m, some e => some (if kindRank m ≤ kindRank e then m else e)

/-- Source `getDefaultExtension` (page.tsx lines 43-50). -/
def getDefaultExtension : FileType → String
  | FileType.pdf => ".pdf"
  | FileType.csv => ".csv"
  | FileType.docx => ".docx"
  | FileType.doc => ".doc"

/-- Source size cap `maxSize = 500 * 1024 * 1024` (page.tsx line 167). -/
def maxSize : Nat := 500 * 1024 * 1024

/-- The detected members of an incoming batch, in submission order: the
files of the batch whose `getFileType` is non-null, carrying their
detected type (source `validFiles`, page.tsx lines 105-114). -/
def detectedFiles (newFiles : List RawFile) : List MFile :=
  newFiles.filterMap (fun f =>
    (getFileType f).map (fun t => { name := f.name, fileType := t, size := f.size }))

/-- The names of the batch members rejected by detection (source
`invalidFiles`, page.tsx lines 105-110). -/
def invalidNames (newFiles : List RawFile) : List String :=
  newFiles.filterMap (fun f => if (getFileType f).isNone then some f.name else none)

/-- The error surfaced by one `addFiles` call, named after the
specification taxonomy (§7). -/
inductive AddError where
  | unsupported
  | mixedKinds
  | sizeCapExceeded
deriving DecidableEq, Repr

/-- Source `addFiles` (page.tsx lines 101-180) as a function from the
current collection and an incoming batch to the new collection and the
final error state.  Detection splits the batch into `detectedFiles` and
`invalidNames`; an unsupported-files error is recorded when any name was
rejected.  The mixed-kind rejection fires only when the batch itself
mixes kinds, the existing collection is non-empty, and the kind of the
existing collection differs from the kind of the first detected file.
The per-file structural validation step (pdf-lib / papaparse / mammoth,
lines 134-160) is an external library capability and is modelled as
accepting every detected file.  The size check compares the combined
size of the prospective collection against `maxSize` and on overflow
keeps the previous collection; on acceptance the error state is cleared
only when no batch member had been rejected by detection. -/
def addFiles (files : List MFile) (newFiles : List RawFile) :
    List MFile × Option AddError :=
  let baseErr : Option AddError :=
    if invalidNames newFiles = [] then none else some AddError.unsupported
  match detectedFiles newFiles with
  | [] => (files, baseErr)
  | first :: rest =>
    let validFiles := first :: rest
    let allSameType := validFiles.all (fun f => decide (f.fileType = first.fileType))
    if allSameType = false ∧ files ≠ [] ∧
        files.head?.map MFile.fileType ≠ some first.fileType then
      (files, some AddError.mixedKinds)
    else
      let combined := files ++ validFiles
      if (combined.map MFile.size).sum > maxSize then
        (files, some AddError.sizeCapExceeded)
      else
        (combined, baseErr)

/-- One parsed CSV row, as delivered by the external parser. -/
abbrev Row := List String

/-- The accumulator loop of source `mergeCSVs` (page.tsx lines 287-303):
`i` counts input files; a non-empty first file records its row 0 as the
headers and contributes every row, every later file contributes its rows
from index 1 onward, and an empty parse contributes nothing. -/
def csvLoop : List (List Row) → Nat → Option Row × List Row → Option Row × List Row
  | [], _, acc => acc
  | data :: rest, i, acc =>
    if 0 < data.length then
      if i = 0 then csvLoop rest (i + 1) (data.head?, acc.2 ++ data)
      else csvLoop rest (i + 1) (acc.1, acc.2 ++ data.drop 1)
    else csvLoop rest (i + 1) acc

/-- Source `mergeCSVs` (page.tsx lines 283-311) on the parsed row lists of
the input files: run the accumulator loop, then re-insert the captured
headers at the front when the accumulated output is non-empty and its
first row differs from them (the structural row comparison models the
`JSON.stringify` equality test of line 306). -/
def mergeCSVs (files : List (List Row)) : List Row :=
  let acc := csvLoop files 0 (none, [])
  match acc.1 with
  | none => acc.2
  | some h => if 0 < acc.2.length ∧ acc.2.head? ≠ some h then h :: acc.2 else acc.2

/-- One input to the Word merge: its display name, its detected kind, and
the plain text that the external extractor (mammoth) delivers for a DOCX
container (unused for a legacy `.doc` file, which is never parsed). -/
structure WordFile where
  name : String
  fileType : FileType
  text : String
deriving DecidableEq, Repr

/-- One output paragraph of the Word merge: either a text paragraph with
its `spacing.after` value, or the empty page-break paragraph
(`pageBreakBefore: true`). -/
inductive Par where
  | text (content : String) (spacingAfter : Nat)
  | pageBreak
deriving DecidableEq, Repr

/-- Source line filter `text.split('\n').filter(line => line.trim())`
(page.tsx line 327): the lines of the extracted text whose trim is
non-empty. -/
def nonBlankLines (text : String) : List String :=
  (splitLinesStr text).filter (fun line => trimStr line != "")

/-- Source paragraph emission for one DOCX input (page.tsx lines 328-335):
one paragraph per kept line, spacing 400 after the last line of the file
and 200 otherwise. -/
def docxParagraphs (lines : List String) : List Par :=
  lines.enum.map (fun p =>
    Par.text p.2 (if p.1 = lines.length - 1 then 400 else 200))

/-- Source placeholder text for a legacy `.doc` input (page.tsx line 350). -/
def placeholderText (name : String) : String :=
  "[Note: " ++ name ++ " could not be processed - .doc format requires conversion to .docx]"

/-- The per-file loop of source `mergeWordDocs` (page.tsx lines 317-355):
a DOCX input contributes its line paragraphs followed by a page-break
paragraph when it is not the last input (`i < filesToMerge.length - 1`);
any other input takes the else branch and contributes the single
placeholder paragraph, with no page break. -/
def wordLoop : List WordFile → Nat → Nat → List Par
  | [], _, _ => []
  | file :: rest, i, total =>
    (if file.fileType = FileType.docx then
      docxParagraphs (nonBlankLines file.text) ++
        (if i < total - 1 then [Par.pageBreak] else [])
    else
      [Par.text (placeholderText file.name) 400]) ++ wordLoop rest (i + 1) total

/-- Source `mergeWordDocs` (page.tsx lines 314-365) as the paragraph list
assembled into the single output document. -/
def mergeWordDocs (files : List WordFile) : List Par :=
  wordLoop files 0 files.length

/-- The output filename computed inside source `mergeFiles`
(page.tsx lines 391-409): per dispatched kind, keep the entered name
when it already ends with the extension of that branch, otherwise append
it; both Word kinds use the `.docx` branch. -/
def outputFilenameFor (fileType : FileType) (outputFilename : String) : String :=
  match fileType with
  | FileType.pdf =>
    if endsWithStr outputFilename ".pdf" then outputFilename
    else outputFilename ++ ".pdf"
  | FileType.csv =>
    if endsWithStr outputFilename ".csv" then outputFilename
    else outputFilename ++ ".csv"
  | FileType.docx =>
    if endsWithStr outputFilename ".docx" then outputFilename
    else outputFilename ++ ".docx"
  | FileType.doc =>
    if endsWithStr outputFilename ".docx" then outputFilename
    else outputFilename ++ ".docx"

/-- The canonical output extension per kind (spec §4.5): `.pdf`, `.csv`,
and `.docx` for both Word kinds, since the Word merge always produces a
DOCX container. -/
def canonicalExt : FileType → String
  | FileType.pdf => ".pdf"
  | FileType.csv => ".csv"
  | FileType.docx => ".docx"
  | FileType.doc => ".docx"

/-- Errors of source `mergeFiles` before any per-kind strategy runs. -/
inductive MergeError where
  | insufficientFiles
  | mixedTypes
deriving DecidableEq, Repr

/-- Outcome of the source `mergeFiles` dispatch: either an early error
(no per-kind strategy invoked, no output produced) or the dispatch to
the strategy of the shared kind together with the packaged output
filename. -/
inductive MergeOutcome where
  | err (e : MergeError)
  | merged (kind : FileType) (filename : String)
deriving DecidableEq, Repr

/-- Source `mergeFiles` (page.tsx lines 368-409) up to the per-kind
strategy dispatch: fewer than two files error out first; a collection
whose members do not all share the first kind errors next; otherwise
the strategy of the shared kind runs and the output filename is
packaged from the entered name. -/
def mergeFiles (files : List MFile) (outputFilename : String) : MergeOutcome :=
  if files.length < 2 then MergeOutcome.err MergeError.insufficientFiles
  else
    match files with
    | [] => MergeOutcome.err MergeError.insufficientFiles
    | first :: _ =>
      if files.all (fun f => decide (f.fileType = first.fileType)) then
        MergeOutcome.merged first.fileType (outputFilenameFor first.fileType outputFilename)
      else MergeOutcome.err MergeError.mixedTypes

/-- The list/selection state of the page: source `files` and
`selectedFileIndex` (page.tsx lines 18 and 25). -/
structure AppState where
  files : List MFile
  selectedFileIndex : Option Nat
deriving DecidableEq, Repr

/-- Source removal filter `prev.filter((_, i) => i !== index)`
(page.tsx line 218). -/
def removeAt (l : List MFile) (index : Nat) : List MFile :=
  (l.enum.filter (fun p => p.1 != index)).map Prod.snd

/-- Source `removeFile` (page.tsx lines 217-220): drop the entry at the
index and clear the selection unconditionally. -/
def removeFile (st : AppState) (index : Nat) : AppState :=
  { files := removeAt st.files index, selectedFileIndex := none }

/-- The Delete/Backspace branch of the source `handleKeyDown` effect
(page.tsx lines 242-253) when a file is selected and no input field has
focus: call `removeFile` on the selected index, then set the selection
to index minus one when the index was positive, to 0 when the
pre-removal list still had more than one file, and to none otherwise
(the two state updates land in the same handler, so the later selection
write wins). -/
def deleteSelected (st : AppState) : AppState :=
  match st.selectedFileIndex with
  | none => st
  | some i =>
    let afterRemove := removeFile st i
    { afterRemove with
      selectedFileIndex :=
        if 0 < i then some (i - 1)
        else if 1 < st.files.length then some 0
        else none }

/-- Direction argument of source `moveFile`. -/
inductive Dir where
  | up
  | down
deriving DecidableEq, Repr

/-- Source `moveFile` (page.tsx lines 229-237): return unchanged when the
first entry moves up or the last entry moves down; otherwise swap the
entry with its adjacent neighbour (the destructuring swap of line 234,
expressed with two `set` writes) and select the target position.  The
function is modelled on indices addressing existing entries, the only
ones the page produces (per-row buttons and the selected index); a swap
position outside the list is modelled as leaving the list unchanged. -/
def moveFile (st : AppState) (index : Nat) (dir : Dir) : AppState :=
  if dir = Dir.up ∧ index = 0 then st
  else if dir = Dir.down ∧ index + 1 = st.files.length then st
  else
    let targetIndex := if dir = Dir.up then index - 1 else index + 1
    match st.files.get? index, st.files.get? targetIndex with
    | some a, some b =>
      { files := (st.files.set index b).set targetIndex a,
        selectedFileIndex := some targetIndex }
    | _, _ => { st with selectedFileIndex := some targetIndex }

/-- Example collection members shared by the concrete witness statements. -/
def mfA : MFile := ⟨"a.pdf", FileType.pdf, 1⟩

/-- Second example collection member. -/
def mfB : MFile := ⟨"b.pdf", FileType.pdf, 2⟩

/-- Third example collection member. -/
def mfC : MFile := ⟨"c.pdf", FileType.pdf, 3⟩

/-- C1: evaluation of `addFiles` at the failing input of the claim.  On an
empty collection, a batch holding one PDF and one CSV is accepted in its
entirety with no error, because the mixed-kind rejection of the source is
guarded by `files.length > 0`: the claim (and the spec invariant behind
it) expects zero accepted files, a MixedKinds error, and an unchanged
collection, but the code appends both files. -/
theorem addFiles_mixed_batch_on_empty_accepted :
    addFiles [] [⟨"a.pdf", "application/pdf", 5⟩, ⟨"b.csv", "text/csv", 7⟩] =
      ([⟨"a.pdf", FileType.pdf, 5⟩, ⟨"b.csv", FileType.csv, 7⟩], none) := by
  decide

/-- C2 counterexample: a file whose declared media type maps to CSV but
whose name extension maps to PDF is classified PDF by `getFileType`,
not by its media type as the claim requires. -/
theorem getFileType_media_type_loses_cex :
    getFileType ⟨"data.pdf", "text/csv", 0⟩ = some FileType.pdf ∧
    mediaKind (lowerStr "text/csv") = some FileType.csv ∧
    FileType.pdf ≠ FileType.csv := by
  decide

/-- C2 (amended): detection combines the kind named by the media type and
the kind named by the extension; either alone decides, on a conflict the
kind tested earlier in the fixed order pdf, csv, docx, doc wins, and a
file matching no media type and no extension is classified None. -/
theorem getFileType_eq_combineKinds (f : RawFile) :
    getFileType f = combineKinds (mediaKind (lowerStr f.type)) (extKind (lowerStr f.name)) := by
  by_cases hP1 : lowerStr f.type = "application/pdf" <;>
    by_cases hP2 : lowerStr f.type = "text/csv" <;>
    by_cases hP3 : lowerStr f.type = "application/vnd.ms-excel" <;>
    by_cases hP4 : lowerStr f.type =
      "application/vnd.openxmlformats-officedocument.wordprocessingml.document" <;>
    by_cases hP5 : lowerStr f.type = "application/msword" <;>
    by_cases hE1 : endsWithStr (lowerStr f.name) ".pdf" = true <;>
    by_cases hE2 : endsWithStr (lowerStr f.name) ".csv" = true <;>
    by_cases hE3 : endsWithStr (lowerStr f.name) ".docx" = true <;>
    by_cases hE4 : endsWithStr (lowerStr f.name) ".doc" = true <;>
    simp_all [getFileType, mediaKind, extKind, combineKinds, kindRank]

/-- C4 counterexample: a stem ending in the canonical extension only up to
letter case is not used as-is; the code appends a second extension, where
the claim requires case-insensitive comparison and no double extension. -/
theorem outputFilename_uppercase_ext_cex :
    outputFilenameFor FileType.pdf "report.PDF" = "report.PDF.pdf" ∧
    endsWithStr (lowerStr "report.PDF") ".pdf" = true ∧
    "report.PDF.pdf" ≠ "report.PDF" := by
  decide

/-- C4 (amended): the comparison against the canonical extension is
case-sensitive; a stem ending in the exact canonical extension is kept
as-is, any other stem gets the extension appended, and both Word kinds
use the canonical extension `.docx`. -/
theorem outputFilename_normalization (k : FileType) (stem : String) :
    (endsWithStr stem (canonicalExt k) = true → outputFilenameFor k stem = stem) ∧
    (endsWithStr stem (canonicalExt k) = false →
      outputFilenameFor k stem = stem ++ canonicalExt k) := by
  cases k <;> constructor <;> intro h <;> simp only [canonicalExt] at h <;>
    simp [outputFilenameFor, canonicalExt, h]

/-- C4 witness: the normalization theorem applied to concrete stems of
each shape, including the legacy Word kind. -/
theorem outputFilename_normalization_witness :
    outputFilenameFor FileType.pdf "report" = "report" ++ ".pdf" ∧
    outputFilenameFor FileType.pdf "report.pdf" = "report.pdf" ∧
    outputFilenameFor FileType.doc "legacy" = "legacy" ++ ".docx" :=
  ⟨(outputFilename_normalization FileType.pdf "report").2 (by decide),
   (outputFilename_normalization FileType.pdf "report.pdf").1 (by decide),
   (outputFilename_normalization FileType.doc "legacy").2 (by decide)⟩

/-- C8: a merge request over fewer than two files returns the
insufficient-files error; no per-kind strategy is dispatched and no
output filename is packaged (the `merged` outcome is never built). -/
theorem mergeFiles_insufficient (files : List MFile) (outName : String)
    (h : files.length < 2) :
    mergeFiles files outName = MergeOutcome.err MergeError.insufficientFiles := by
  unfold mergeFiles
  rw [if_pos h]

/-- C8 witness: the precondition theorem applied to a one-file list. -/
theorem mergeFiles_insufficient_witness :
    mergeFiles [mfA] "merged" = MergeOutcome.err MergeError.insufficientFiles :=
  mergeFiles_insufficient [mfA] "merged" (by decide)

/-- After the first file has been consumed the index stays positive, so
the accumulator loop only appends the tail rows of the remaining files
and never touches the captured headers. -/
theorem csvLoop_tail (rest : List (List Row)) :
    ∀ (i : Nat), i ≠ 0 → ∀ (hdrs : Option Row) (acc : List Row),
      csvLoop rest i (hdrs, acc) =
        (hdrs, acc ++ (rest.map (fun d => d.drop 1)).flatten) := by
  induction rest with
  | nil => intro i hi hdrs acc; simp [csvLoop]
  | cons d rest ih =>
    intro i hi hdrs acc
    by_cases hd : 0 < d.length
    · simp [csvLoop, hd, hi, ih (i + 1) (Nat.succ_ne_zero i), List.append_assoc]
    · have hd0 : d = [] := List.length_eq_zero.mp (Nat.eq_zero_of_not_pos hd)
      subst hd0
      simp [csvLoop, hi, ih (i + 1) (Nat.succ_ne_zero i)]

/-- A CSV merge whose first file is non-empty takes every row of that
first file followed by the tail rows of every later file; the defensive
header re-insertion does not fire because the output already starts with
the captured header row. -/
theorem mergeCSVs_cons (h : Row) (t : List Row) (rest : List (List Row)) :
    mergeCSVs ((h :: t) :: rest) = (h :: t) ++ (rest.map (fun d => d.drop 1)).flatten := by
  have hstep : csvLoop ((h :: t) :: rest) 0 (none, ([] : List Row)) =
      (some h, (h :: t) ++ (rest.map (fun d => d.drop 1)).flatten) := by
    simp [csvLoop, csvLoop_tail rest 1 one_ne_zero]
  simp [mergeCSVs, hstep]

/-- C3: merging the parsed row lists `[ [h, r1, r2], [h, r3] ]` yields
`[h, r1, r2, r3]`; in general the first (non-empty) input contributes all
of its rows including row 0 and every later input contributes exactly its
rows from index 1 onward in order; and when the data rows differ from the
header the merged output of the two-file instance holds exactly one copy
of the header row. -/
theorem mergeCSVs_header_dedup :
    (∀ h r1 r2 r3 : Row, mergeCSVs [[h, r1, r2], [h, r3]] = [h, r1, r2, r3]) ∧
    (∀ (h : Row) (t : List Row) (rest : List (List Row)),
      mergeCSVs ((h :: t) :: rest) = (h :: t) ++ (rest.map (fun d => d.drop 1)).flatten) ∧
    (∀ h r1 r2 r3 : Row, r1 ≠ h → r2 ≠ h → r3 ≠ h →
      (mergeCSVs [[h, r1, r2], [h, r3]]).count h = 1) := by
  have hinst : ∀ h r1 r2 r3 : Row, mergeCSVs [[h, r1, r2], [h, r3]] = [h, r1, r2, r3] := by
    intro h r1 r2 r3
    simpa using mergeCSVs_cons h [r1, r2] [[h, r3]]
  refine ⟨hinst, mergeCSVs_cons, ?_⟩
  intro h r1 r2 r3 h1 h2 h3
  rw [hinst h r1 r2 r3]
  simp [List.count_cons, h1, h2, h3]

/-- C3 witness: the count conjunct of the header-dedup theorem applied to
concrete distinct rows. -/
theorem mergeCSVs_header_dedup_witness :
    (mergeCSVs [[["h"], ["a"], ["b"]], [["h"], ["c"]]]).count ["h"] = 1 :=
  mergeCSVs_header_dedup.2.2 ["h"] ["a"] ["b"] ["c"] (by decide) (by decide) (by decide)

/-- Unfolding of `addFiles` when the batch has at least one detected
file. -/
theorem addFiles_cons (files : List MFile) (newFiles : List RawFile)
    (first : MFile) (rest : List MFile)
    (hdet : detectedFiles newFiles = first :: rest) :
    addFiles files newFiles =
      (if (first :: rest).all (fun f => decide (f.fileType = first.fileType)) = false ∧
          files ≠ [] ∧ files.head?.map MFile.fileType ≠ some first.fileType then
        (files, some AddError.mixedKinds)
      else if ((files ++ first :: rest).map MFile.size).sum > maxSize then
        (files, some AddError.sizeCapExceeded)
      else
        (files ++ first :: rest,
          if invalidNames newFiles = [] then none else some AddError.unsupported)) := by
  unfold addFiles
  rw [hdet]

/-- Unfolding of `addFiles` when no batch member passes detection. -/
theorem addFiles_nil (files : List MFile) (newFiles : List RawFile)
    (hdet : detectedFiles newFiles = []) :
    addFiles files newFiles =
      (files, if invalidNames newFiles = [] then none else some AddError.unsupported) := by
  unfold addFiles
  rw [hdet]

/-- C5 counterexample: an existing one-byte PDF collection and a batch
whose detected members (a 500 MB CSV and a PDF) push the prospective
total past the cap is rejected, but with a MixedKinds error rather than
the SizeCapExceeded error the claim promises for every oversize batch. -/
theorem addFiles_size_cap_preempted_cex :
    addFiles [⟨"a.pdf", FileType.pdf, 1⟩]
        [⟨"big.csv", "text/csv", 524288000⟩, ⟨"c.pdf", "application/pdf", 1⟩] =
      ([⟨"a.pdf", FileType.pdf, 1⟩], some AddError.mixedKinds) ∧
    1 + (524288000 + 1) > maxSize ∧
    AddError.mixedKinds ≠ AddError.sizeCapExceeded := by
  decide

/-- C5 (amended): when the size of the existing collection plus the
detected batch members would pass the cap, the collection is left
unchanged; the reported error is SizeCapExceeded whenever the batch is
not first rejected by the mixed-kind check; and every `addFiles` call
preserves the invariant that the collection total is at most the cap. -/
theorem addFiles_size_cap (files : List MFile) (newFiles : List RawFile) :
    ((files.map MFile.size).sum + ((detectedFiles newFiles).map MFile.size).sum > maxSize →
      (addFiles files newFiles).1 = files) ∧
    ((files.map MFile.size).sum ≤ maxSize →
      ((addFiles files newFiles).1.map MFile.size).sum ≤ maxSize) ∧
    (∀ first rest, detectedFiles newFiles = first :: rest →
      ¬((first :: rest).all (fun f => decide (f.fileType = first.fileType)) = false ∧
          files ≠ [] ∧ files.head?.map MFile.fileType ≠ some first.fileType) →
      (files.map MFile.size).sum + ((detectedFiles newFiles).map MFile.size).sum > maxSize →
      addFiles files newFiles = (files, some AddError.sizeCapExceeded)) := by
  rcases hdet : detectedFiles newFiles with _ | ⟨first, rest⟩
  · rw [addFiles_nil files newFiles hdet]
    refine ⟨fun _ => rfl, fun hle => hle, ?_⟩
    intro first rest hcontra
    simp at hcontra
  · rw [addFiles_cons files newFiles first rest hdet]
    have hsum : ((files ++ first :: rest).map MFile.size).sum =
        (files.map MFile.size).sum + ((first :: rest).map MFile.size).sum := by
      simp
    by_cases hmix : (first :: rest).all (fun f => decide (f.fileType = first.fileType)) = false ∧
        files ≠ [] ∧ files.head?.map MFile.fileType ≠ some first.fileType
    · rw [if_pos hmix]
      refine ⟨fun _ => rfl, fun hle => hle, ?_⟩
      intro f2 r2 hdet2 hnmix _
      cases hdet2
      exact absurd hmix hnmix
    · rw [if_neg hmix]
      by_cases hsz : ((files ++ first :: rest).map MFile.size).sum > maxSize
      · rw [if_pos hsz]
        refine ⟨fun _ => rfl, fun hle => hle, ?_⟩
        intro f2 r2 hdet2 _ _
        rfl
      · rw [if_neg hsz]
        refine ⟨?_, ?_, ?_⟩
        · intro hover
          exact absurd (by rw [hsum]; exact hover) hsz
        · intro _
          exact Nat.le_of_not_lt hsz
        · intro f2 r2 hdet2 _ hover
          exact absurd (by rw [hsum]; exact hover) hsz

/-- C5 witness: the size-cap theorem applied to a full collection and a
small uniform batch: the batch is rejected with SizeCapExceeded, the
collection is unchanged, and the cap invariant holds after a small add. -/
theorem addFiles_size_cap_witness :
    (addFiles [⟨"a.pdf", FileType.pdf, maxSize⟩] [⟨"c.pdf", "application/pdf", 1⟩]).1 =
      [⟨"a.pdf", FileType.pdf, maxSize⟩] ∧
    ((addFiles [mfA] [⟨"c.pdf", "application/pdf", 1⟩]).1.map MFile.size).sum ≤ maxSize ∧
    addFiles [⟨"a.pdf", FileType.pdf, maxSize⟩] [⟨"c.pdf", "application/pdf", 1⟩] =
      ([⟨"a.pdf", FileType.pdf, maxSize⟩], some AddError.sizeCapExceeded) := by
  refine ⟨(addFiles_size_cap _ _).1 ?_, (addFiles_size_cap _ _).2.1 ?_,
    (addFiles_size_cap _ _).2.2 ⟨"c.pdf", FileType.pdf, 1⟩ [] ?_ ?_ ?_⟩ <;> decide

/-- Paragraph chunks of consecutive documents separated by one page-break
paragraph, with no break after the last chunk. -/
def joinWithBreaks : List (List Par) → List Par
  | [] => []
  | [c] => c
  | c :: c2 :: rest => c ++ Par.pageBreak :: joinWithBreaks (c2 :: rest)

/-- Unfolding step of `joinWithBreaks` at a list of two or more chunks. -/
theorem joinWithBreaks_cons (c c2 : List Par) (rest : List (List Par)) :
    joinWithBreaks (c :: c2 :: rest) = c ++ Par.pageBreak :: joinWithBreaks (c2 :: rest) := rfl

/-- On an all-DOCX suffix of the input list whose index bookkeeping
matches the total (`i + files.length = total`), the word loop produces
the paragraph chunks of the files separated by page breaks. -/
theorem wordLoop_all_docx (files : List WordFile) :
    ∀ (i total : Nat), i + files.length = total →
      (∀ f ∈ files, f.fileType = FileType.docx) →
      wordLoop files i total =
        joinWithBreaks (files.map (fun f => docxParagraphs (nonBlankLines f.text))) := by
  induction files with
  | nil => intro i total _ _; simp [wordLoop, joinWithBreaks]
  | cons f rest ih =>
    intro i total hlen hall
    have hf : f.fileType = FileType.docx := hall f (List.mem_cons_self f rest)
    cases rest with
    | nil =>
      have hlast : ¬ i < total - 1 := by
        simp at hlen
        omega
      simp [wordLoop, hf, hlast, joinWithBreaks]
    | cons g rs =>
      have hmid : i < total - 1 := by
        simp [List.length_cons] at hlen
        omega
      have hrest : ∀ x ∈ g :: rs, x.fileType = FileType.docx :=
        fun x hx => hall x (List.mem_cons_of_mem f hx)
      have hlen2 : (i + 1) + (g :: rs).length = total := by
        simp [List.length_cons] at hlen ⊢
        omega
      have ihh := ih (i + 1) total hlen2 hrest
      rw [wordLoop, if_pos hf, if_pos hmid, ihh]
      simp [joinWithBreaks_cons]

/-- On an all-legacy suffix the word loop emits exactly one placeholder
paragraph per file and never a page break, whatever the indices are. -/
theorem wordLoop_all_legacy (files : List WordFile) :
    ∀ (i total : Nat), (∀ f ∈ files, f.fileType = FileType.doc) →
      wordLoop files i total =
        files.map (fun f => Par.text (placeholderText f.name) 400) := by
  induction files with
  | nil => intro i total _; simp [wordLoop]
  | cons f rest ih =>
    intro i total hall
    have hf : f.fileType = FileType.doc := hall f (List.mem_cons_self f rest)
    have hrest : ∀ x ∈ rest, x.fileType = FileType.doc :=
      fun x hx => hall x (List.mem_cons_of_mem f hx)
    simp [wordLoop, hf, ih (i + 1) total hrest]

/-- C6 counterexample: merging two legacy `.doc` inputs yields the two
placeholder paragraphs with no page-break paragraph between them, where
the claim requires a page break between every pair of consecutive
documents. -/
theorem mergeWordDocs_no_break_after_legacy_cex :
    mergeWordDocs [⟨"a.doc", FileType.doc, ""⟩, ⟨"b.doc", FileType.doc, ""⟩] =
      [Par.text (placeholderText "a.doc") 400, Par.text (placeholderText "b.doc") 400] ∧
    Par.pageBreak ∉ mergeWordDocs [⟨"a.doc", FileType.doc, ""⟩, ⟨"b.doc", FileType.doc, ""⟩] := by
  decide

/-- C6 (amended): a DOCX input contributes one paragraph per line of its
extracted text whose trim is non-empty, and in an all-DOCX merge one
page-break paragraph separates consecutive documents with none after the
last; a legacy `.doc` input contributes a single placeholder paragraph
with no page break after it, so an all-legacy merge is exactly the list
of placeholder paragraphs. -/
theorem mergeWordDocs_structure :
    (∀ files : List WordFile, (∀ f ∈ files, f.fileType = FileType.docx) →
      mergeWordDocs files =
        joinWithBreaks (files.map (fun f => docxParagraphs (nonBlankLines f.text)))) ∧
    (∀ files : List WordFile, (∀ f ∈ files, f.fileType = FileType.doc) →
      mergeWordDocs files = files.map (fun f => Par.text (placeholderText f.name) 400)) :=
  ⟨fun files h => wordLoop_all_docx files 0 files.length (Nat.zero_add _) h,
   fun files h => wordLoop_all_legacy files 0 files.length h⟩

/-- C6 witness: the structure theorem applied to a concrete two-file DOCX
merge and a concrete one-file legacy merge. -/
theorem mergeWordDocs_structure_witness :
    mergeWordDocs [⟨"a.docx", FileType.docx, "x\n \ny"⟩, ⟨"b.docx", FileType.docx, "z"⟩] =
      joinWithBreaks [docxParagraphs (nonBlankLines "x\n \ny"),
        docxParagraphs (nonBlankLines "z")] ∧
    mergeWordDocs [⟨"c.doc", FileType.doc, ""⟩] =
      [Par.text (placeholderText "c.doc") 400] := by
  constructor
  · exact (mergeWordDocs_structure.1
      [⟨"a.docx", FileType.docx, "x\n \ny"⟩, ⟨"b.docx", FileType.docx, "z"⟩] (by decide)).trans
      (by decide)
  · exact (mergeWordDocs_structure.2 [⟨"c.doc", FileType.doc, ""⟩] (by decide)).trans (by decide)

/-- C7 counterexample: the plain removal path (`removeFile`, used by the
per-row remove button) removes the selected entry at index 1 but clears
the selection to none, where the claim requires the selection to shift
to index 0 on every removal path. -/
theorem removeFile_clears_selection_cex :
    (removeFile ⟨[mfA, mfB], some 1⟩ 1).selectedFileIndex = none ∧
    (removeFile ⟨[mfA, mfB], some 1⟩ 1).files = [mfA] ∧
    (none : Option Nat) ≠ some 0 := by
  decide

/-- C7 (amended): on the keyboard Delete/Backspace path the selection
follows the claimed adjustment rule after the selected entry at index
`i` is removed: it moves to `i - 1` when `i` was positive, stays at 0
when other files remain, and becomes none when the selected file was the
only one; the plain `removeFile` path instead always clears the
selection. -/
theorem deleteSelected_adjustment (st : AppState) (i : Nat)
    (hsel : st.selectedFileIndex = some i) :
    (0 < i → (deleteSelected st).selectedFileIndex = some (i - 1)) ∧
    (i = 0 → 1 < st.files.length → (deleteSelected st).selectedFileIndex = some 0) ∧
    (i = 0 → st.files.length ≤ 1 → (deleteSelected st).selectedFileIndex = none) ∧
    (∀ j, (removeFile st j).selectedFileIndex = none) := by
  have hd : deleteSelected st =
      { files := removeAt st.files i,
        selectedFileIndex :=
          if 0 < i then some (i - 1)
          else if 1 < st.files.length then some 0
          else none } := by
    unfold deleteSelected removeFile
    rw [hsel]
  refine ⟨fun h0 => ?_, fun hi0 hlen => ?_, fun hi0 hlen => ?_, fun j => rfl⟩
  · rw [hd]
    simp [h0]
  · subst hi0
    rw [hd]
    simp [hlen]
  · subst hi0
    rw [hd]
    simp [Nat.not_lt.mpr hlen]

/-- C7 witness: the adjustment theorem applied to the three concrete
selection scenarios and to the plain removal path. -/
theorem deleteSelected_adjustment_witness :
    (deleteSelected ⟨[mfA, mfB], some 1⟩).selectedFileIndex = some 0 ∧
    (deleteSelected ⟨[mfA, mfB], some 0⟩).selectedFileIndex = some 0 ∧
    (deleteSelected ⟨[mfA], some 0⟩).selectedFileIndex = none ∧
    (removeFile ⟨[mfA, mfB], some 0⟩ 0).selectedFileIndex = none :=
  ⟨(deleteSelected_adjustment ⟨[mfA, mfB], some 1⟩ 1 rfl).1 (by decide),
   (deleteSelected_adjustment ⟨[mfA, mfB], some 0⟩ 0 rfl).2.1 rfl (by decide),
   (deleteSelected_adjustment ⟨[mfA], some 0⟩ 0 rfl).2.2.1 rfl (by decide),
   (deleteSelected_adjustment ⟨[mfA, mfB], some 0⟩ 0 rfl).2.2.2 0⟩

/-- C9: moving the first entry up or the last entry down leaves the file
list unchanged (and the operation has no error channel at all), and a
non-boundary move swaps the entry with its adjacent neighbour, leaving
every other position untouched. -/
theorem moveFile_boundaries_and_swap :
    (∀ st : AppState, (moveFile st 0 Dir.up).files = st.files) ∧
    (∀ st : AppState, 0 < st.files.length →
      (moveFile st (st.files.length - 1) Dir.down).files = st.files) ∧
    (∀ (st : AppState) (i : Nat) (hi : i + 1 < st.files.length),
      (moveFile st i Dir.down).files =
        (st.files.set i (st.files.get ⟨i + 1, hi⟩)).set (i + 1)
          (st.files.get ⟨i, Nat.lt_of_succ_lt hi⟩)) ∧
    (∀ (st : AppState) (i : Nat) (_h0 : 0 < i) (hi : i < st.files.length),
      (moveFile st i Dir.up).files =
        (st.files.set i
            (st.files.get ⟨i - 1, Nat.lt_of_le_of_lt (Nat.pred_le i) hi⟩)).set (i - 1)
          (st.files.get ⟨i, hi⟩)) := by
  refine ⟨fun st => ?_, fun st h => ?_, fun st i hi => ?_, fun st i h0 hi => ?_⟩
  · simp [moveFile]
  · have h1 : st.files.length - 1 + 1 = st.files.length := Nat.succ_pred_eq_of_pos h
    simp [moveFile, h1]
  · have hi0 : i < st.files.length := Nat.lt_of_succ_lt hi
    simp [moveFile, Nat.ne_of_lt hi, List.getElem?_eq_getElem hi, List.getElem?_eq_getElem hi0]
  · have hi1 : i - 1 < st.files.length := Nat.lt_of_le_of_lt (Nat.pred_le i) hi
    simp [moveFile, Nat.pos_iff_ne_zero.mp h0, List.getElem?_eq_getElem hi, List.getElem?_eq_getElem hi1]

/-- C9 witness: the boundary and swap statements applied to a concrete
three-file collection. -/
theorem moveFile_boundaries_and_swap_witness :
    (moveFile ⟨[mfA, mfB, mfC], none⟩ 0 Dir.up).files = [mfA, mfB, mfC] ∧
    (moveFile ⟨[mfA, mfB, mfC], none⟩ 2 Dir.down).files = [mfA, mfB, mfC] ∧
    (moveFile ⟨[mfA, mfB, mfC], none⟩ 0 Dir.down).files = [mfB, mfA, mfC] ∧
    (moveFile ⟨[mfA, mfB, mfC], none⟩ 2 Dir.up).files = [mfA, mfC, mfB] := by
  refine ⟨?_, ?_, ?_, ?_⟩
  · exact moveFile_boundaries_and_swap.1 ⟨[mfA, mfB, mfC], none⟩
  · exact moveFile_boundaries_and_swap.2.1 ⟨[mfA, mfB, mfC], none⟩ (by decide)
  · exact (moveFile_boundaries_and_swap.2.2.1 ⟨[mfA, mfB, mfC], none⟩ 0 (by decide)).trans
      (by decide)
  · exact (moveFile_boundaries_and_swap.2.2.2 ⟨[mfA, mfB, mfC], none⟩ 2 (by decide)
      (by decide)).trans (by decide)

/-- C10: after a non-boundary move the selection is set to the new
position of the moved entry — index minus one for up, index plus one for
down —
whatever the selection was before the move. -/
theorem moveFile_selection (st : AppState) (i : Nat) :
    (0 < i → i < st.files.length →
      (moveFile st i Dir.up).selectedFileIndex = some (i - 1)) ∧
    (i + 1 < st.files.length →
      (moveFile st i Dir.down).selectedFileIndex = some (i + 1)) := by
  constructor
  · intro h0 hi
    have hi1 : i - 1 < st.files.length := Nat.lt_of_le_of_lt (Nat.pred_le i) hi
    simp [moveFile, Nat.pos_iff_ne_zero.mp h0, List.getElem?_eq_getElem hi, List.getElem?_eq_getElem hi1]
  · intro hi
    have hi0 : i < st.files.length := Nat.lt_of_succ_lt hi
    simp [moveFile, Nat.ne_of_lt hi, List.getElem?_eq_getElem hi, List.getElem?_eq_getElem hi0]

/-- C10 witness: the selection-follows-move theorem applied to concrete
moves with a different entry selected beforehand. -/
theorem moveFile_selection_witness :
    (moveFile ⟨[mfA, mfB, mfC], some 0⟩ 1 Dir.up).selectedFileIndex = some 0 ∧
    (moveFile ⟨[mfA, mfB, mfC], some 2⟩ 1 Dir.down).selectedFileIndex = some 2 :=
  ⟨(moveFile_selection ⟨[mfA, mfB, mfC], some 0⟩ 1).1 (by decide) (by decide),
   (moveFile_selection ⟨[mfA, mfB, mfC], some 2⟩ 1).2 (by decide)⟩

end FileMerger
